import Mathlib

/-
Verification development for the telebot Wordle engine (src/main.rs).

Strings are modelled as lists of Unicode scalar values (`List Char`),
matching Rust's `String`/`str` at the `chars()` level.  Rust's
byte-oriented `str::len` is modelled by `rustStrLen` (sum of UTF-8
encoded lengths), while the scalar count is `List.length`.
-/

/-- Rust `Placement` enum from src/main.rs (Correct / Incorrect / Missing,
where Incorrect renders as the yellow "present" tile and Missing as the
black "absent" tile). -/
inductive Placement
  | Correct
  | Incorrect
  | Missing
deriving DecidableEq

/-- A Rust `String` viewed as its sequence of Unicode scalar values. -/
abbrev Word := List Char

/-- Number of bytes in the UTF-8 encoding of one scalar value; mirrors
Rust `char::len_utf8`. -/
def rustCharUtf8Len (c : Char) : Nat :=
  if c.toNat < 0x80 then 1
  else if c.toNat < 0x800 then 2
  else if c.toNat < 0x10000 then 3
  else 4

/-- Rust `str::len`: the UTF-8 byte length of a string.  This is what
`edit_dictionary` compares against 5 (`word.len() != 5`), as opposed to
the scalar count `attempt.chars().count()` used in `guess_state`. -/
def rustStrLen (w : Word) : Nat := (w.map rustCharUtf8Len).sum

/-- The Unicode White_Space property, the predicate used by Rust's
`str::split_whitespace` (via `char::is_whitespace`). -/
def isRustWhitespace (c : Char) : Bool :=
  c ∈ ['\t', '\n', '\x0B', '\x0C', '\r', ' ', '\u0085', '\u00A0',
       '\u1680', '\u2000', '\u2001', '\u2002', '\u2003', '\u2004',
       '\u2005', '\u2006', '\u2007', '\u2008', '\u2009', '\u200A',
       '\u2028', '\u2029', '\u202F', '\u205F', '\u3000']

/-- Worker loop for `splitWhitespace`; `acc` holds the current token in
reverse. -/
def splitWhitespaceAux : List Char → List Char → List Word
  | [], acc => if acc.isEmpty then [] else [acc.reverse]
  | c :: rest, acc =>
    if isRustWhitespace c then
      if acc.isEmpty then splitWhitespaceAux rest []
      else acc.reverse :: splitWhitespaceAux rest []
    else splitWhitespaceAux rest (c :: acc)

/-- Rust `str::split_whitespace` collected into a `Vec<String>`:
whitespace-delimited tokens, with no empty tokens. -/
def splitWhitespace (s : List Char) : List Word := splitWhitespaceAux s []

/-- The scratch copy of the answer after the first pass of the guess
evaluator in `guess_state`: `corrected_answer` starts as the answer's
chars, and every position where the attempt matches exactly is
overwritten with a space (`corrected_answer[i] = ' '`).  Positions of
the answer beyond the attempt's length are left untouched. -/
def passOne : List Char → List Char → List Char
  | _, [] => []
  | [], bs => bs
  | a :: as, b :: bs => (if a = b then ' ' else b) :: passOne as bs

/-- The final value of `placement[i]` in `guess_state` after both
passes.  The first pass sets position `i` to `Correct` exactly when the
zipped iteration reaches `i` and the chars match; the second pass
iterates over the attempt's chars and upgrades a non-`Correct` position
to `Incorrect` exactly when `corrected_answer.contains(&attempt_char)`.
Both loops write `placement[i]` only at iteration `i`, and the second
pass never modifies `corrected_answer`, so each position's final value
depends only on `attempt[i]`, `answer[i]` and the fixed scratch copy
`passOne attempt answer` - which is what this function computes. -/
def tileAt (attempt answer : List Char) (i : Nat) : Placement :=
  match attempt[i]?, answer[i]? with
  | some a, some b =>
    if a = b then Placement.Correct
    else if (passOne attempt answer).contains a then Placement.Incorrect
    else Placement.Missing
  | some a, none =>
    if (passOne attempt answer).contains a then Placement.Incorrect
    else Placement.Missing
  | none, _ => Placement.Missing

/-- The `placement` array (`[Placement::Missing; 5]` mutated by the two
passes) of `guess_state`, as a length-5 list. -/
def evalGuess (attempt answer : List Char) : List Placement :=
  (List.range 5).map (tileAt attempt answer)

/-- `to_emoji` from src/main.rs: positional rendering of a placement
list as green / yellow / black squares. -/
def toEmoji (ps : List Placement) : List Char :=
  ps.map fun p =>
    match p with
    | Placement.Correct => '🟩'
    | Placement.Incorrect => '🟨'
    | Placement.Missing => '⬛'

/-- Number of positions of the attempt that hold the letter `c` and were
marked `Incorrect` ("present") by the evaluator. -/
def presentMarksFor (c : Char) (attempt : List Char) (tiles : List Placement) : Nat :=
  ((attempt.zip tiles).filter fun p => decide (p.1 = c ∧ p.2 = Placement.Incorrect)).length

/-- `[Placement::Correct; 5]`, the winning placement. -/
def allCorrect : List Placement := List.replicate 5 Placement.Correct

/-- The process-wide word store: `GAME_WORDS` (playable secrets),
`DICT_WORDS` (valid guesses) and the `DIRTY_DICTIONARY` flag.  The Rust
`BTreeSet<String>` is modelled as a duplicate-free list; iteration
order (sorted for a BTreeSet) is abstracted, which no claim depends
on. -/
structure WordStore where
  gameWords : List Word
  dictWords : List Word
  dirty : Bool
deriving DecidableEq

/-- `DictionaryAction` from src/main.rs. -/
inductive DictionaryAction
  | Add (words : List Word)
  | Remove (words : List Word)

/-- The inner loop of the `Add` branch of `edit_dictionary` over one
set: for each candidate, skip it unless its UTF-8 byte length
(`word.len()`) is exactly 5, and record it in `added` when
`dict.insert(word)` actually inserted it. -/
def addPass : List Word → List Word → List Word → List Word × List Word
  | [], s, added => (s, added)
  | w :: ws, s, added =>
    if rustStrLen w ≠ 5 then addPass ws s added
    else if w ∈ s then addPass ws s added
    else addPass ws (s ++ [w]) (if w ∈ added then added else added ++ [w])

/-- The inner loop of the `Remove` branch of `edit_dictionary` over one
set: record each word that `dict.remove(word)` actually removed. -/
def removePass : List Word → List Word → List Word → List Word × List Word
  | [], s, removed => (s, removed)
  | w :: ws, s, removed =>
    if w ∈ s then removePass ws (s.erase w) (if w ∈ removed then removed else removed ++ [w])
    else removePass ws s removed

/-- `edit_dictionary` from src/main.rs: apply the action to `GAME_WORDS`
and then to `DICT_WORDS`, accumulating the set of words actually
changed, and unconditionally store `true` into `DIRTY_DICTIONARY`.
Returns the updated store and the changed set (the code formats it into
the "Added ..." / "Removed ..." reply). -/
def editDictionary (action : DictionaryAction) (st : WordStore) : WordStore × List Word :=
  match action with
  | DictionaryAction.Add words =>
    let r1 := addPass words st.gameWords []
    let r2 := addPass words st.dictWords r1.2
    (⟨r1.1, r2.1, true⟩, r2.2)
  | DictionaryAction.Remove words =>
    let r1 := removePass words st.gameWords []
    let r2 := removePass words st.dictWords r1.2
    (⟨r1.1, r2.1, true⟩, r2.2)

/-- `is_dictionary_word` from src/main.rs: membership in `DICT_WORDS`. -/
def isDictionaryWord (st : WordStore) (w : Word) : Bool := decide (w ∈ st.dictWords)

/-- The per-conversation `Dialogue` enum: `Start(StartState)` or
`Guess(GuessState { answer, guesses, last_input })`.  `guesses` pairs
the emoji rendering with the guessed word. -/
inductive Dialogue
  | Start
  | Guess (answer : Word) (guesses : List (Word × Word)) (lastInput : List Word)
deriving DecidableEq

/-- One handler step's observable outcome: the word store afterwards,
the replies actually sent through the channel (in order), and the next
dialogue state. -/
structure StepOut where
  store : WordStore
  replies : List Word
  dialogue : Dialogue
deriving DecidableEq

/-- Decimal rendering of a number, as used by `format!` for `usize`. -/
def natChars (n : Nat) : List Char := (Nat.repr n).toList

/-- `Vec::join("\n")` over the emoji column of the guess history. -/
def joinNl : List Word → List Char
  | [] => []
  | [l] => l
  | l :: ls => l ++ '\n' :: joinNl ls

/-- Rust `Debug` rendering of one word inside the changed set. -/
def debugQuoted (w : Word) : List Char := '"' :: w ++ ['"']

/-- Comma-separated `Debug` renderings. -/
def debugJoin : List Word → List Char
  | [] => []
  | [w] => debugQuoted w
  | w :: ws => debugQuoted w ++ String.toList ", " ++ debugJoin ws

/-- `format!("{:?}", set)` for the changed word set (braces written via
their code points). -/
def debugSetChars (ws : List Word) : List Char :=
  Char.ofNat 123 :: debugJoin ws ++ [Char.ofNat 125]

/-- Reply of the `Add` branch of `edit_dictionary`. -/
def addedReply (ws : List Word) : List Char := String.toList "Added " ++ debugSetChars ws

/-- Reply of the `Remove` branch of `edit_dictionary`. -/
def removedReply (ws : List Word) : List Char := String.toList "Removed " ++ debugSetChars ws

/-- The reply announcing a new game in `start_state`. -/
def startMessage : List Char := String.toList "Wordle game started - /guess any 5 letter word"

/-- `start_state` from src/main.rs.  `pick` stands for the word returned
by `get_random_word()` (a uniformly chosen element of `GAME_WORDS`,
abstracted as a parameter).  Note that the match is on the WHOLE
message text (`ans.as_str()`), not on its first token; `input` (the
token list) is only stored into the new state's `last_input`. -/
def startState (pick : Word) (ans : List Char) : List Word × Dialogue :=
  let input := splitWhitespace ans
  if ans = String.toList "/wordle" then
    ([startMessage], Dialogue.Guess pick [] input)
  else if ans = String.toList "/420" then
    ([], Dialogue.Start)
  else
    ([], Dialogue.Start)

/-- The body of `guess_state` after tokenizing, dispatching on the first
token `cmd` (with `input = cmd :: args` the full token list).  The
branches appear in the order of the Rust `match` arms.  In the
wrong-arity `/guess` arm the code builds `cx.answer("Invalid guess")`
but never awaits the returned future, so no reply is actually sent;
that arm and the catch-all return the ORIGINAL state (`next(state)`),
with `last_input` not updated. -/
def guessStep (st : WordStore) (answer : Word) (guesses : List (Word × Word))
    (lastInput : List Word) (cmd : Word) (args : List Word) : StepOut :=
  let input := cmd :: args
  if cmd = String.toList "/addword" ∨ cmd = String.toList "/addword@doomybot" then
    let r :=
      if input.length = 1 ∧ lastInput.length = 2 then
        editDictionary (DictionaryAction.Add [lastInput.getD 1 []]) st
      else
        editDictionary (DictionaryAction.Add args) st
    ⟨r.1, [addedReply r.2], Dialogue.Guess answer guesses input⟩
  else if cmd = String.toList "/exit" ∨ cmd = String.toList "/end" ∨ cmd = String.toList "/stop" then
    ⟨st, [String.toList "Ending game. Word was " ++ answer], Dialogue.Start⟩
  else if cmd = String.toList "/removeword" then
    if input.length < 2 then
      ⟨st, [String.toList "Usage: /removeword <WORD> [..WORD2]"], Dialogue.Guess answer guesses input⟩
    else
      let r := editDictionary (DictionaryAction.Remove args) st
      ⟨r.1, [removedReply r.2], Dialogue.Guess answer guesses input⟩
  else if cmd = String.toList "/guess" ∧ input.length = 2 then
    let attempt := args.getD 0 []
    if attempt.length ≠ 5 then
      ⟨st, [String.toList "Guess was not 5 characters"], Dialogue.Guess answer guesses input⟩
    else if isDictionaryWord st attempt = false then
      ⟨st, [attempt ++ String.toList " is not in the dictionary. /addword?"],
        Dialogue.Guess answer guesses input⟩
    else
      let placement := evalGuess attempt answer
      let result := toEmoji placement
      let guesses2 := guesses ++ [(result, attempt)]
      let emojiString := joinNl (guesses2.map Prod.fst)
      let tries := guesses2.length
      if placement = allCorrect then
        ⟨st, [String.toList "You won. " ++ natChars tries ++ String.toList "/6" ++
          '\n' :: emojiString], Dialogue.Start⟩
      else if tries + 1 < 7 then
        ⟨st, [natChars tries ++ String.toList "/6" ++ '\n' :: emojiString],
          Dialogue.Guess answer guesses2 input⟩
      else
        ⟨st, [String.toList "You lost. 6/6. Cringe.\nAnswer was " ++ answer ++
          '\n' :: emojiString], Dialogue.Start⟩
  else if cmd = String.toList "/guess" then
    ⟨st, [], Dialogue.Guess answer guesses lastInput⟩
  else
    ⟨st, [], Dialogue.Guess answer guesses lastInput⟩

/-- `guess_state` from src/main.rs.  The handler splits the text on
whitespace and immediately indexes `new_state.last_input[0]`; on an
empty token list (whitespace-only message) that indexing panics, which
is modelled as `none`. -/
def guessState (st : WordStore) (answer : Word) (guesses : List (Word × Word))
    (lastInput : List Word) (ans : List Char) : Option StepOut :=
  match splitWhitespace ans with
  | [] => none
  | cmd :: args => some (guessStep st answer guesses lastInput cmd args)

/-- Outcome of the two `File::create` calls in one flush cycle of
`dictionary_worker` (a failing `write_all` is covered by the same flag:
either way the surrounding `expect` fires). -/
structure FlushEnv where
  createGameOk : Bool
  createDictOk : Bool
deriving DecidableEq

/-- Serialization performed by one flush: every word followed by a
newline (`write_all(word)` then `write_all("\n")`), in iteration
order. -/
def serializeWords (ws : List Word) : List Char :=
  ws.foldr (fun w acc => w ++ '\n' :: acc) []

/-- One wake of `dictionary_worker`: test-and-clear the dirty flag; if
it was set, write `GAME_WORDS` then `DICT_WORDS` to the two custom
files.  `File::create(..).expect(..)` panics on failure, modelled as
`none`; otherwise the written file contents are returned. -/
def flushCycle (dirty : Bool) (game dict : List Word) (env : FlushEnv) :
    Option (List (List Char)) :=
  if dirty then
    if env.createGameOk then
      if env.createDictOk then some [serializeWords game, serializeWords dict]
      else none
    else none
  else some []

/-- The worker loop across successive wakes.  Each cycle supplies the
dirty flag's value at that wake, the sets' contents and the file-system
outcome.  A panic (`none`) aborts the loop: no later cycle is
attempted. -/
def workerRun : List (Bool × List Word × List Word × FlushEnv) → Option (List (List Char))
  | [] => some []
  | c :: rest =>
    match flushCycle c.1 c.2.1 c.2.2.1 c.2.2.2 with
    | none => none
    | some out =>
      match workerRun rest with
      | none => none
      | some outs => some (out ++ outs)

/-- Strip one trailing carriage return, as `BufRead::lines` does after
removing the `'\n'` terminator of a line. -/
def stripCR (l : List Char) : List Char :=
  if l.getLast? = some '\r' then l.dropLast else l

/-- Worker loop for `rustLines`; `acc` holds the current line in
reverse.  A final line not terminated by `'\n'` is yielded as-is (its
trailing `'\r'`, if any, is NOT stripped, matching `BufRead::lines`). -/
def rustLinesAux : List Char → List Char → List (List Char)
  | [], acc => if acc.isEmpty then [] else [acc.reverse]
  | c :: rest, acc =>
    if c = '\n' then stripCR acc.reverse :: rustLinesAux rest []
    else rustLinesAux rest (c :: acc)

/-- `BufRead::lines` over a file's character content, as used by
`load_game_words` / `load_dict_words`. -/
def rustLines (l : List Char) : List (List Char) := rustLinesAux l []

/-- `load_game_words` / `load_dict_words` reading an override file:
insert every line into a fresh `BTreeSet` (modelled as a duplicate-free
list in first-encounter order). -/
def loadWords (contents : List Char) : List Word :=
  (rustLines contents).foldl (fun s w => if w ∈ s then s else s ++ [w]) []

/-- A small concrete store used by witnesses and counterexamples. -/
def sampleStore : WordStore :=
  ⟨[String.toList "crane", String.toList "zebra"],
   [String.toList "crane", String.toList "zebra"], false⟩

/-- The empty store. -/
def emptyStore : WordStore := ⟨[], [], false⟩

theorem mem_addPass (words : List Word) (s added : List Word) (w : Word) :
    w ∈ (addPass words s added).1 ↔ w ∈ s ∨ (w ∈ words ∧ rustStrLen w = 5) := by
  induction words generalizing s added with
  | nil => simp [addPass]
  | cons v ws ih =>
    rw [addPass]
    split
    · rename_i h5
      rw [ih]
      simp only [List.mem_cons]
      constructor
      · tauto
      · rintro (h | ⟨rfl | hw, hl⟩)
        · tauto
        · exact absurd hl h5
        · tauto
    · rename_i h5
      split
      · rename_i hv
        rw [ih]
        simp only [List.mem_cons]
        constructor
        · tauto
        · rintro (h | ⟨rfl | hw, hl⟩) <;> tauto
      · rename_i hv
        push_neg at h5
        rw [ih]
        simp only [List.mem_append, List.mem_cons, List.not_mem_nil, or_false]
        constructor
        · rintro ((h | rfl) | ⟨hw, hl⟩) <;> tauto
        · rintro (h | ⟨rfl | hw, hl⟩) <;> tauto

/-- Claim C10: every call to `edit_dictionary` - `Add` or `Remove`,
whether or not anything actually changed - unconditionally stores
`true` into the dirty flag, so even a no-op edit triggers a flush at
the worker's next wake. -/
theorem edit_dictionary_always_sets_dirty (action : DictionaryAction) (st : WordStore) :
    ((editDictionary action st).1).dirty = true := by
  cases action <;> rfl

/-- Claim C3 (counterexample): `edit_dictionary` validates the UTF-8
byte length, not the Unicode scalar count.  The 4-scalar word "ab¢d"
(5 bytes) IS inserted into the playable set, and the 5-scalar word
"héllo" (6 bytes) is NOT - both directions of the claimed equivalence
fail on the code. -/
theorem add_validates_bytes_counterexample :
    (String.toList "ab¢d").length = 4 ∧
    String.toList "ab¢d" ∈
      ((editDictionary (DictionaryAction.Add [String.toList "ab¢d"]) emptyStore).1).gameWords ∧
    (String.toList "héllo").length = 5 ∧
    String.toList "héllo" ∉
      ((editDictionary (DictionaryAction.Add [String.toList "héllo"]) emptyStore).1).gameWords := by
  decide

/-- Claim C3 (amended): a candidate passed to `edit(Add)` ends up in the
playable set iff it was already there or it occurs in the batch with a
UTF-8 byte length (Rust `str::len`) of exactly 5; in particular every
word newly inserted via the edit protocol has UTF-8 byte length 5
(which coincides with 5 scalar values only for ASCII words). -/
theorem add_inserts_iff_five_bytes (words : List Word) (st : WordStore) (w : Word) :
    w ∈ ((editDictionary (DictionaryAction.Add words) st).1).gameWords ↔
      w ∈ st.gameWords ∨ (w ∈ words ∧ rustStrLen w = 5) := by
  simp only [editDictionary]
  exact mem_addPass words st.gameWords [] w

/-- Claim C2: on a message whose text has no whitespace-delimited
tokens, `guess_state` indexes `new_state.last_input[0]` on an empty
vector and panics (modelled as `none`) instead of ignoring the
message. -/
theorem guess_state_empty_input_panics (st : WordStore) (answer : Word)
    (guesses : List (Word × Word)) (lastInput : List Word) (ans : List Char)
    (h : splitWhitespace ans = []) :
    guessState st answer guesses lastInput ans = none := by
  simp only [guessState, h]

theorem guess_state_empty_input_panics_witness :
    guessState sampleStore (String.toList "crane") [] [] (String.toList "   ") = none :=
  guess_state_empty_input_panics sampleStore (String.toList "crane") [] []
    (String.toList "   ") (by decide)

/-- Claim C6: on a `/guess` with a number of arguments other than one,
the handler returns the original `Guessing` state unchanged (history,
answer and even `last_input` untouched) but sends NO reply: the code
builds `cx.answer("Invalid guess")` and drops the future without
awaiting it, so the message is never delivered. -/
theorem guess_wrong_arity_sends_no_reply (st : WordStore) (answer : Word)
    (guesses : List (Word × Word)) (lastInput : List Word) (ans : List Char)
    (args : List Word)
    (h : splitWhitespace ans = String.toList "/guess" :: args)
    (hlen : args.length ≠ 1) :
    guessState st answer guesses lastInput ans =
      some ⟨st, [], Dialogue.Guess answer guesses lastInput⟩ := by
  simp only [guessState, h]
  rw [guessStep]
  rw [if_neg (by decide), if_neg (by decide), if_neg (by decide),
    if_neg (by simp [hlen]), if_pos rfl]

theorem guess_wrong_arity_sends_no_reply_witness :
    guessState sampleStore (String.toList "crane") [] [] (String.toList "/guess") =
      some ⟨sampleStore, [], Dialogue.Guess (String.toList "crane") [] []⟩ :=
  guess_wrong_arity_sends_no_reply sampleStore (String.toList "crane") [] []
    (String.toList "/guess") [] (by decide) (by decide)

/-- Claim C4 (counterexample): for the message "/wordle now", whose
first whitespace-delimited token is exactly "/wordle", `start_state`
does NOT start a game: it matches the whole text, falls through to the
catch-all, sends no reply and stays in `Start`. -/
theorem start_state_first_token_counterexample :
    (splitWhitespace (String.toList "/wordle now")).headD [] = String.toList "/wordle" ∧
    startState (String.toList "crane") (String.toList "/wordle now") =
      ([], Dialogue.Start) := by
  decide

/-- Claim C4 (amended): in the `Start` state, command recognition
compares the ENTIRE message text (case-sensitively) against "/wordle",
not its first token: the game starts - secret picked, start message
sent, transition to `Guessing` with empty history - exactly when the
message text equals "/wordle". -/
theorem start_state_whole_text_match (pick : Word) (ans : List Char) :
    startState pick ans =
      ([startMessage], Dialogue.Guess pick [] (splitWhitespace ans)) ↔
      ans = String.toList "/wordle" := by
  constructor
  · intro h
    by_contra hne
    simp only [startState, if_neg hne] at h
    split at h <;> simp at h
  · rintro rfl
    simp [startState]

/-- Claim C7 (counterexample): a failed `File::create` during a dirty
flush makes the worker thread panic (`expect`), so the run aborts and
the second wake - whose flush would have succeeded - is never
attempted. -/
theorem flush_failure_counterexample :
    workerRun [(true, [], [], ⟨false, true⟩),
               (true, [String.toList "crane"], [], ⟨true, true⟩)] = none := by
  decide

/-- Claim C7 (amended): when the dirty flag is set and either
`File::create` fails, the flush cycle panics the worker thread, and the
worker loop performs no further flush cycles. -/
theorem flush_failure_panics_worker (dirty : Bool) (g d : List Word) (env : FlushEnv)
    (rest : List (Bool × List Word × List Word × FlushEnv))
    (hdirty : dirty = true)
    (hfail : env.createGameOk = false ∨ env.createDictOk = false) :
    flushCycle dirty g d env = none ∧
    workerRun ((dirty, g, d, env) :: rest) = none := by
  subst hdirty
  have hc : flushCycle true g d env = none := by
    rcases hfail with hf | hf
    · simp [flushCycle, hf]
    · rcases hg : env.createGameOk <;> simp [flushCycle, hf, hg]
  refine ⟨hc, ?_⟩
  simp only [workerRun]
  rw [hc]

theorem flush_failure_panics_worker_witness :
    flushCycle true [] [] ⟨false, true⟩ = none ∧
    workerRun [(true, [], [], ⟨false, true⟩)] = none :=
  flush_failure_panics_worker true [] [] ⟨false, true⟩ [] rfl (Or.inl rfl)

theorem addPass_singleton_mem (w : Word) (s r : List Word) (hw : w ∈ s) :
    addPass [w] s r = (s, r) := by
  by_cases h5 : rustStrLen w ≠ 5 <;> simp [addPass, h5, hw]

theorem removePass_singleton_fst (w : Word) (s r : List Word) :
    (removePass [w] s r).1 = if w ∈ s then s.erase w else s := by
  by_cases hw : w ∈ s <;> simp [removePass, hw]

/-- Claim C8 (counterexample): "héllo" has exactly 5 Unicode scalar
values, yet `edit(Add, ["héllo"])` followed by
`containsInDictionary("héllo")` returns false: the add is skipped
because the byte length is 6. -/
theorem add_then_contains_counterexample :
    (String.toList "héllo").length = 5 ∧
    isDictionaryWord
      ((editDictionary (DictionaryAction.Add [String.toList "héllo"]) emptyStore).1)
      (String.toList "héllo") = false := by
  decide

/-- Claim C8 (amended): for every word whose UTF-8 byte length is 5
(in particular every 5-letter ASCII word such as "zebra"),
`edit(Add, [w])` followed by `containsInDictionary(w)` returns true and
`edit(Remove, [w])` followed by the same query returns false; and
`edit(Add)` on a word already present in both sets is a no-op returning
an empty actually-changed set. -/
theorem edit_add_remove_contains (st : WordStore) (w : Word)
    (h5 : rustStrLen w = 5) (hnd : st.dictWords.Nodup) :
    isDictionaryWord ((editDictionary (DictionaryAction.Add [w]) st).1) w = true ∧
    isDictionaryWord ((editDictionary (DictionaryAction.Remove [w]) st).1) w = false ∧
    (w ∈ st.gameWords → w ∈ st.dictWords →
      (editDictionary (DictionaryAction.Add [w]) st).2 = []) := by
  refine ⟨?_, ?_, ?_⟩
  · simp only [isDictionaryWord, editDictionary, decide_eq_true_eq]
    rw [mem_addPass]
    exact Or.inr ⟨List.mem_cons_self w [], h5⟩
  · simp only [isDictionaryWord, editDictionary, decide_eq_false_iff_not]
    rw [removePass_singleton_fst]
    by_cases hw : w ∈ st.dictWords
    · rw [if_pos hw]
      exact List.Nodup.not_mem_erase hnd
    · rw [if_neg hw]
      exact hw
  · intro hg hd
    simp only [editDictionary]
    rw [addPass_singleton_mem w st.gameWords [] hg]
    rw [addPass_singleton_mem w st.dictWords [] hd]

theorem edit_add_remove_contains_witness :
    isDictionaryWord
      ((editDictionary (DictionaryAction.Add [String.toList "zebra"]) sampleStore).1)
      (String.toList "zebra") = true ∧
    isDictionaryWord
      ((editDictionary (DictionaryAction.Remove [String.toList "zebra"]) sampleStore).1)
      (String.toList "zebra") = false ∧
    (String.toList "zebra" ∈ sampleStore.gameWords →
      String.toList "zebra" ∈ sampleStore.dictWords →
      (editDictionary (DictionaryAction.Add [String.toList "zebra"]) sampleStore).2 = []) :=
  edit_add_remove_contains sampleStore (String.toList "zebra") (by decide) (by decide)

/-- Claim C5 (counterexample): a wrong-length `/guess` does NOT leave
the `Guessing` state identical: on the message "/guess abcd" from a
state whose `last_input` is empty, the handler replies and returns a
state whose `last_input` has become the message's tokens, which differs
from the state before. -/
theorem invalid_guess_state_change_counterexample :
    guessState sampleStore (String.toList "crane") [] [] (String.toList "/guess abcd") =
      some ⟨sampleStore, [String.toList "Guess was not 5 characters"],
        Dialogue.Guess (String.toList "crane") []
          [String.toList "/guess", String.toList "abcd"]⟩ ∧
    Dialogue.Guess (String.toList "crane") []
        [String.toList "/guess", String.toList "abcd"] ≠
      Dialogue.Guess (String.toList "crane") [] [] := by
  decide

/-- Claim C5 (amended): a one-argument `/guess` whose attempt has a
scalar count other than 5, or whose word is not in the dictionary,
produces exactly one error reply, leaves the store untouched, appends
nothing to history, keeps the same answer and remains in `Guessing` -
but updates `last_input` to the message's parsed tokens (so the state
is NOT identical unless `last_input` already held those tokens). -/
theorem invalid_guess_frame (st : WordStore) (answer : Word)
    (guesses : List (Word × Word)) (lastInput : List Word) (ans : List Char)
    (attempt : Word)
    (hsplit : splitWhitespace ans = [String.toList "/guess", attempt])
    (hbad : attempt.length ≠ 5 ∨ isDictionaryWord st attempt = false) :
    ∃ reply, guessState st answer guesses lastInput ans =
      some ⟨st, [reply],
        Dialogue.Guess answer guesses [String.toList "/guess", attempt]⟩ := by
  simp only [guessState, hsplit]
  rw [guessStep]
  rw [if_neg (by decide), if_neg (by decide), if_neg (by decide),
    if_pos ⟨rfl, rfl⟩]
  simp only [List.getD_cons_zero]
  by_cases h5 : attempt.length ≠ 5
  · rw [if_pos h5]
    exact ⟨_, rfl⟩
  · rcases hbad with hb | hb
    · exact absurd hb h5
    · rw [if_neg h5, if_pos hb]
      exact ⟨_, rfl⟩

theorem invalid_guess_frame_witness :
    ∃ reply, guessState sampleStore (String.toList "crane") [] []
        (String.toList "/guess abcd") =
      some ⟨sampleStore, [reply],
        Dialogue.Guess (String.toList "crane") []
          [String.toList "/guess", String.toList "abcd"]⟩ :=
  invalid_guess_frame sampleStore (String.toList "crane") [] []
    (String.toList "/guess abcd") (String.toList "abcd") (by decide)
    (Or.inl (by decide))

theorem mem_of_getLast?_eq {l : List Char} {a : Char} (h : l.getLast? = some a) :
    a ∈ l := by
  rcases l with _ | ⟨c, l⟩
  · simp at h
  · have hne : c :: l ≠ [] := by simp
    rw [List.getLast?_eq_getLast _ hne] at h
    injection h with h
    exact h ▸ List.getLast_mem hne

theorem stripCR_of_not_mem (w : List Char) (h : '\r' ∉ w) : stripCR w = w := by
  rw [stripCR, if_neg]
  intro hc
  exact h (mem_of_getLast?_eq hc)

theorem rustLinesAux_token (w rest acc : List Char) (hw : '\n' ∉ w) :
    rustLinesAux (w ++ '\n' :: rest) acc =
      stripCR (acc.reverse ++ w) :: rustLinesAux rest [] := by
  induction w generalizing acc with
  | nil => simp [rustLinesAux]
  | cons c w ih =>
    have hc : c ≠ '\n' := fun h => hw (h ▸ List.mem_cons_self c w)
    have hw2 : '\n' ∉ w := fun h => hw (List.mem_cons_of_mem c h)
    simp only [List.cons_append, rustLinesAux, if_neg hc, List.append_eq,
      ih (c :: acc) hw2, List.reverse_cons, List.append_assoc,
      List.singleton_append, List.nil_append]

theorem rustLines_serializeWords (ws : List Word)
    (h : ∀ w ∈ ws, '\n' ∉ w ∧ '\r' ∉ w) :
    rustLines (serializeWords ws) = ws := by
  induction ws with
  | nil => rfl
  | cons w ws ih =>
    have hw := h w (List.mem_cons_self w ws)
    show rustLinesAux (w ++ '\n' :: serializeWords ws) [] = w :: ws
    rw [rustLinesAux_token w (serializeWords ws) [] hw.1]
    rw [List.reverse_nil, List.nil_append, stripCR_of_not_mem w hw.2]
    exact congrArg (w :: ·) (ih fun x hx => h x (List.mem_cons_of_mem w hx))

theorem foldIns_append (ws : List Word) (s : List Word) (h : (s ++ ws).Nodup) :
    ws.foldl (fun s w => if w ∈ s then s else s ++ [w]) s = s ++ ws := by
  induction ws generalizing s with
  | nil => simp
  | cons w ws ih =>
    have hw : w ∉ s := fun hmem =>
      (List.disjoint_of_nodup_append h) hmem (List.mem_cons_self w ws)
    have h2 : ((s ++ [w]) ++ ws).Nodup := by
      rw [List.append_assoc, List.singleton_append]
      exact h
    simp only [List.foldl_cons, if_neg hw]
    rw [ih (s ++ [w]) h2, List.append_assoc, List.singleton_append]

/-- Claim C9: for any pair of word sets whose words contain no newline
characters (neither LF nor CR), writing each set one word per line
(`dictionary_worker`'s flush) and reloading the written file
(`load_game_words` / `load_dict_words`) reproduces exactly the same
playable and dictionary sets: deserialization is a left inverse of
serialization.  The conclusion is equality of the underlying
duplicate-free lists, which is in particular order-independent set
equality. -/
theorem serialize_load_roundtrip (ps ds : List Word)
    (hpn : ps.Nodup) (hdn : ds.Nodup)
    (hp : ∀ w ∈ ps, '\n' ∉ w ∧ '\r' ∉ w)
    (hd : ∀ w ∈ ds, '\n' ∉ w ∧ '\r' ∉ w) :
    loadWords (serializeWords ps) = ps ∧ loadWords (serializeWords ds) = ds := by
  constructor
  · rw [loadWords, rustLines_serializeWords ps hp]
    simpa using foldIns_append ps [] (by simpa using hpn)
  · rw [loadWords, rustLines_serializeWords ds hd]
    simpa using foldIns_append ds [] (by simpa using hdn)

theorem serialize_load_roundtrip_witness :
    loadWords (serializeWords [String.toList "zebra"]) = [String.toList "zebra"] ∧
    loadWords (serializeWords [String.toList "crane", String.toList "zebra"]) =
      [String.toList "crane", String.toList "zebra"] :=
  serialize_load_roundtrip [String.toList "zebra"]
    [String.toList "crane", String.toList "zebra"]
    (by decide) (by decide) (by decide) (by decide)

theorem evalGuess_getD (attempt answer : List Char) (i : Nat) (hi : i < 5) :
    (evalGuess attempt answer).getD i Placement.Missing = tileAt attempt answer i := by
  rw [evalGuess, List.getD_eq_getElem?_getD, List.getElem?_map,
    List.getElem?_range hi]
  rfl

/-- Claim C1 (counterexample): for the attempt "xyzaa" against the
answer "abcde" - both of exactly 5 scalar values - the second pass
marks BOTH trailing a's as Present although only one unconsumed 'a'
remains in the scratch copy after exact matches: the number of Present
marks for 'a' exceeds the letter's remaining count in the answer, so
the second pass does not consume one instance per Present mark. -/
theorem present_overcount_counterexample :
    ¬ (presentMarksFor 'a' (String.toList "xyzaa")
          (evalGuess (String.toList "xyzaa") (String.toList "abcde")) ≤
        (passOne (String.toList "xyzaa") (String.toList "abcde")).count 'a') := by
  decide

/-- Claim C1 (amended): for attempt and answer of exactly 5 scalar
values, a position is marked Present (yellow) if and only if it is not
an exact match and its letter occurs anywhere in the FIXED scratch copy
left by the first pass (exact-match positions blanked to a space).  The
second pass never consumes an instance from the scratch copy, so
duplicate letters in the attempt can each be marked Present against the
same remaining instance, and may yield more Present tiles than the
letter's remaining count in the answer after exact matches are
removed. -/
theorem second_pass_marks_without_consuming (attempt answer : List Char)
    (hA : attempt.length = 5) (hB : answer.length = 5) (i : Nat) (hi : i < 5) :
    (evalGuess attempt answer).getD i Placement.Missing = Placement.Incorrect ↔
      (attempt.getD i ' ' ≠ answer.getD i ' ' ∧
        (passOne attempt answer).contains (attempt.getD i ' ') = true) := by
  rw [evalGuess_getD attempt answer i hi]
  have hia : i < attempt.length := hA ▸ hi
  have hib : i < answer.length := hB ▸ hi
  have ha : attempt[i]? = some attempt[i] := List.getElem?_eq_getElem hia
  have hb : answer[i]? = some answer[i] := List.getElem?_eq_getElem hib
  have hda : attempt.getD i ' ' = attempt[i] := by
    rw [List.getD_eq_getElem?_getD, ha]
    rfl
  have hdb : answer.getD i ' ' = answer[i] := by
    rw [List.getD_eq_getElem?_getD, hb]
    rfl
  rw [hda, hdb]
  simp only [tileAt, ha, hb]
  split_ifs with h1 h2 <;> simp_all

theorem second_pass_marks_without_consuming_witness :
    (evalGuess (String.toList "xyzaa") (String.toList "abcde")).getD 4
        Placement.Missing = Placement.Incorrect ↔
      ((String.toList "xyzaa").getD 4 ' ' ≠ (String.toList "abcde").getD 4 ' ' ∧
        (passOne (String.toList "xyzaa") (String.toList "abcde")).contains
          ((String.toList "xyzaa").getD 4 ' ') = true) :=
  second_pass_marks_without_consuming (String.toList "xyzaa")
    (String.toList "abcde") (by decide) (by decide) 4 (by decide)
